import Mathlib

/-!
A verification development for the generic reconciliation state machine of
the mongodb-kubernetes-operator repository (package `state`, file
`controllers/mongodb_statemachine.go`).

The Go code is embedded shallowly:

* `reconcile.Result` becomes the structure `ReconcileResult` (`Requeue`,
  `RequeueAfter`); Go errors become `Option String` (`none` = nil error).
* The action, completion-check and guard closures of the Go code close over
  live external data (the Kubernetes API).  They are embedded as numeric
  handles stored in the `State` / `transition` structures; the structure
  `Env` gives the behaviour of every handle at tick time (`act`, `chk`,
  `pred`), together with the Progress Store (`save`, modelling the
  `Saver.SaveNextState` collaborator held by the Go `Machine`).
* Go maps `map[string][]transition` and `map[string]State` become
  association lists with `lookupA` / `insertA` (last insert wins, as for a
  Go map assignment); a missing key in `allTransitions` reads as the empty
  list, as a Go map read does.
* `Machine.Reconcile` panics on a nil current state; the embedding returns
  `Option`, with `none` modelling the panic.
* Side effects that the claims talk about (guard evaluation, persistence
  writes) are made observable: a tick returns, next to the return value of
  the Go function, the list of `Effect`s it performed, in order.
-/

/-- Go `reconcile.Result`: `Requeue bool`, `RequeueAfter time.Duration`
(durations as naturals). -/
structure ReconcileResult where
  Requeue : Bool
  RequeueAfter : Nat
deriving DecidableEq, Repr

/-- Association-list lookup, modelling a Go map read (`m[k]`). -/
def lookupA {α : Type} (k : String) : List (String × α) → Option α
  | [] => none
  | (k', v) :: rest => if k' = k then some v else lookupA k rest

/-- Association-list insert-or-replace, modelling a Go map write
(`m[k] = v`). -/
def insertA {α : Type} (k : String) (v : α) : List (String × α) → List (String × α)
  | [] => [(k, v)]
  | (k', v') :: rest => if k' = k then (k, v) :: rest else (k', v') :: insertA k v rest

/-- Go `state.State`: `Name`, `Reconcile func() (reconcile.Result, error)`,
`IsComplete func() (bool, error)`.  The two closures are embedded as
handles: `Reconcile` is the handle of the action closure (its behaviour at
tick time is `Env.act`), `IsComplete` is `none` when no completion check is
registered (nil function field), otherwise the handle of the check closure
(behaviour `Env.chk`). -/
structure State where
  Name : String
  Reconcile : Nat
  IsComplete : Option Nat
deriving DecidableEq, Repr

/-- Go `state.transition`: `from`, `to`, `predicate`.  `from`/`to` are Lean
keywords, so the fields are `fromS`/`toS`; `predicate` is the handle of the
guard closure (behaviour `Env.pred`). -/
structure transition where
  fromS : State
  toS : State
  predicate : Nat
deriving DecidableEq, Repr

/-- Go `state.AllStates`, the persisted Progress Record:
`{nextState, stateCompletion}`. -/
structure AllStates where
  NextState : String
  StateCompletionStatus : List (String × String)
deriving DecidableEq, Repr

/-- Go `state.Machine` (the logger is dropped; the `Saver` collaborator
lives in `Env.save`). -/
structure Machine where
  allTransitions : List (String × List transition)
  currentState : Option State
  States : List (String × State)
deriving DecidableEq, Repr

/-- The external world at tick time: the behaviour of every action,
completion-check and guard closure, and of the Progress Store method
`SaveNextState` (returning `some e` on failure). -/
structure Env where
  act : Nat → ReconcileResult × Option String
  chk : Nat → Bool × Option String
  pred : Nat → Bool
  save : String → Option String

/-- An observable side effect of a tick: evaluating the guard with the
given handle, or calling `SaveNextState` with the given name. -/
inductive Effect where
  | evalGuard (id : Nat)
  | save (name : String)
deriving DecidableEq, Repr

/-- Go `state.NewStateMachine`. -/
def Machine.NewStateMachine : Machine :=
  { allTransitions := [], currentState := none, States := [] }

/-- Go `Machine.SetState`. -/
def Machine.SetState (m : Machine) (state : State) : Machine :=
  { m with currentState := some state }

/-- The transitions registered for a state name
(`m.allTransitions[s.Name]`, empty when absent). -/
def Machine.transitionsFor (m : Machine) (name : String) : List transition :=
  (lookupA name m.allTransitions).getD []

/-- Go `Machine.AddTransition`: ensure the key exists, append the new
transition at the end of its list, then register both endpoint states
(`m.States[from.Name] = from; m.States[to.Name] = to`, in that order). -/
def Machine.AddTransition (m : Machine) (fromS toS : State) (predicate : Nat) : Machine :=
  let base :=
    match lookupA fromS.Name m.allTransitions with
    | none => insertA fromS.Name [] m.allTransitions
    | some _ => m.allTransitions
  let ts := (lookupA fromS.Name base).getD []
  { m with
    allTransitions :=
      insertA fromS.Name (ts ++ [⟨fromS, toS, predicate⟩]) base,
    States := insertA toS.Name toS (insertA fromS.Name fromS m.States) }

/-- The loop body of Go `Machine.getTransitionForState`: walk the list in
order, evaluate each guard (recording the evaluation), return the first
transition whose guard is true. -/
def getTransitionLoop (env : Env) : List transition → Option transition × List Effect
  | [] => (none, [])
  | t :: rest =>
    if env.pred t.predicate then
      (some t, [Effect.evalGuard t.predicate])
    else
      let r := getTransitionLoop env rest
      (r.1, Effect.evalGuard t.predicate :: r.2)

/-- Go `Machine.getTransitionForState`: the first available transition from
state `s`, together with the guard evaluations performed. -/
def Machine.getTransitionForState (m : Machine) (env : Env) (s : State) :
    Option transition × List Effect :=
  getTransitionLoop env (m.transitionsFor s.Name)

/-- The next-state name `Machine.Reconcile` resolves once the current state
is complete: the target of the first available transition, or the empty
sentinel `""` when there is none. -/
def Machine.resolveNext (m : Machine) (env : Env) (s : State) : String :=
  match (m.getTransitionForState env s).1 with
  | some t => t.toS.Name
  | none => ""

/-- Go `Machine.Reconcile` (the tick).  `none` models the
`panic("no current state!")` branch.  Otherwise the result is the
return value `(reconcile.Result, error)` of the Go function paired with the list
of observable side effects, in order.  The `time.Sleep` pacing calls have
no observable effect and are dropped. -/
def Machine.Reconcile (m : Machine) (env : Env) :
    Option ((ReconcileResult × Option String) × List Effect) :=
  match m.currentState with
  | none => none
  | some cur =>
    match env.act cur.Reconcile with
    | (res, some e) => some ((res, some e), [])
    | (res, none) =>
      match (match cur.IsComplete with
             | none => ((true : Bool), (none : Option String))
             | some cid => env.chk cid) with
      | (_, some e) => some ((⟨false, 0⟩, some e), [])
      | (isComplete, none) =>
        if isComplete then
          let guardEffs := (m.getTransitionForState env cur).2
          let nextState := m.resolveNext env cur
          match env.save nextState with
          | some e => some ((⟨false, 0⟩, some e), guardEffs ++ [Effect.save nextState])
          | none => some ((res, none), guardEffs ++ [Effect.save nextState])
        else
          some ((res, none), [])

/-- A state name is registered when it is a key of the `States` map
(`_, ok := m.States[name]`). -/
def Machine.isRegistered (m : Machine) (name : String) : Bool :=
  (lookupA name m.States).isSome

/-- The graph invariant: every endpoint name referenced by any registered
transition corresponds to a registered state. -/
def Machine.WellFormed (m : Machine) : Prop :=
  ∀ n : String, ∀ tr ∈ m.transitionsFor n,
    m.isRegistered tr.fromS.Name = true ∧ m.isRegistered tr.toS.Name = true

def sA : State := ⟨"A", 0, none⟩

def sB : State := ⟨"B", 1, none⟩

def sC : State := ⟨"C", 2, none⟩

def sD : State := ⟨"D", 3, none⟩

/-- A machine with three guarded edges out of `A`, in registration order
`A→B` (guard 0), `A→C` (guard 1), `A→D` (guard 2). -/
def witnessMachine1 : Machine :=
  ((Machine.NewStateMachine.AddTransition sA sB 0).AddTransition sA sC 1).AddTransition sA sD 2

/-- An environment where guard 0 is false and guards 1 and 2 are true. -/
def witnessEnv1 : Env :=
  ⟨fun _ => (⟨true, 0⟩, none), fun _ => (true, none), fun i => i != 0, fun _ => none⟩

/-- An environment whose action closures fail. -/
def envActErr : Env :=
  ⟨fun _ => (⟨true, 5⟩, some "boom"), fun _ => (true, none), fun i => i != 0, fun _ => none⟩

/-- The `A/B/C/D` machine with `A` as the current state. -/
def witnessMachineA : Machine := witnessMachine1.SetState sA

/-- A state with a registered completion check (handle 0). -/
def sE : State := ⟨"E", 4, some 0⟩

/-- An environment whose completion checks report incomplete. -/
def envIncomplete : Env :=
  ⟨fun _ => (⟨false, 7⟩, none), fun _ => (false, none), fun _ => true, fun _ => none⟩

/-- An environment whose completion checks fail. -/
def envChkErr : Env :=
  ⟨fun _ => (⟨true, 0⟩, none), fun _ => (true, some "chkfail"), fun _ => true, fun _ => none⟩

def startFreshStateName : String := "StartFresh"

def validateSpecStateName : String := "ValidateSpec"

def createServiceStateName : String := "CreateService"

def tlsValidationStateName : String := "TLSValidation"

def tlsResourcesStateName : String := "CreateTLSResources"

def deployAutomationConfigStateName : String := "DeployAutomationConfig"

def deployStatefulSetStateName : String := "DeployStatefulSet"

def resetStatefulSetUpdateStrategyStateName : String := "ResetStatefulSetUpdateStrategy"

def reconciliationEndState : String := "ReconciliationEnd"

def updateStatusState : String := "UpdateStatus"

def stateMachineAnnotation : String := "mongodb.com/v1.stateMachine"

/-- The Kubernetes client, the resource and the logger that the Go state
constructors close over live in `Env`; each state carries the handle of
its `Reconcile` closure (0–9) and, when the Go constructor sets
`IsComplete`, the handle of its completion-check closure (0–3). -/
def NewStartFreshState : State :=
  { Name := startFreshStateName, Reconcile := 0, IsComplete := none }

def NewValidateSpecState : State :=
  { Name := validateSpecStateName, Reconcile := 1, IsComplete := none }

def NewCreateServiceState : State :=
  { Name := createServiceStateName, Reconcile := 2, IsComplete := some 0 }

def NewTLSValidationState : State :=
  { Name := tlsValidationStateName, Reconcile := 3, IsComplete := none }

def NewEnsureTLSResourcesState : State :=
  { Name := tlsResourcesStateName, Reconcile := 4, IsComplete := none }

def NewDeployAutomationConfigState : State :=
  { Name := deployAutomationConfigStateName, Reconcile := 5, IsComplete := some 1 }

def NewDeployStatefulSetState : State :=
  { Name := deployStatefulSetStateName, Reconcile := 6, IsComplete := some 2 }

def NewResetStatefulSetUpdateStrategyState : State :=
  { Name := resetStatefulSetUpdateStrategyStateName, Reconcile := 7, IsComplete := some 3 }

def NewUpdateStatusState : State :=
  { Name := updateStatusState, Reconcile := 8, IsComplete := none }

def NewReconciliationEndState : State :=
  { Name := reconciliationEndState, Reconcile := 9, IsComplete := none }

/-- The transition registrations of Go `BuildStateMachine` (lines 62–129),
in source order.  Guard handle 0 is the shared always-true `noCondition`
closure; handles 1–14 stand for the distinct guard closures over the live
resource (`mdb.Spec.Security.TLS.Enabled`, `needToPublishStateFirst` and
its negation, `scale.IsStillScaling`, `mdb.IsChangingVersion`). -/
def pipelineMachine : Machine :=
  let startFresh := NewStartFreshState
  let validateSpec := NewValidateSpecState
  let serviceState := NewCreateServiceState
  let tlsValidationState := NewTLSValidationState
  let tlsResourcesState := NewEnsureTLSResourcesState
  let deployAutomationConfigState := NewDeployAutomationConfigState
  let deployStatefulSetState := NewDeployStatefulSetState
  let resetUpdateStrategyState := NewResetStatefulSetUpdateStrategyState
  let updateStatus := NewUpdateStatusState
  let endState := NewReconciliationEndState
  ((((((((((((((((((((Machine.NewStateMachine.AddTransition
    startFresh validateSpec 0
    ).AddTransition validateSpec serviceState 0
    ).AddTransition validateSpec tlsValidationState 1
    ).AddTransition validateSpec deployAutomationConfigState 2
    ).AddTransition validateSpec deployStatefulSetState 3
    ).AddTransition serviceState tlsValidationState 4
    ).AddTransition serviceState deployAutomationConfigState 5
    ).AddTransition serviceState deployStatefulSetState 6
    ).AddTransition deployStatefulSetState updateStatus 7
    ).AddTransition tlsValidationState tlsResourcesState 0
    ).AddTransition tlsResourcesState deployAutomationConfigState 8
    ).AddTransition tlsResourcesState deployStatefulSetState 9
    ).AddTransition deployStatefulSetState deployAutomationConfigState 10
    ).AddTransition deployStatefulSetState resetUpdateStrategyState 11
    ).AddTransition deployStatefulSetState updateStatus 0
    ).AddTransition deployAutomationConfigState deployStatefulSetState 12
    ).AddTransition deployAutomationConfigState resetUpdateStrategyState 13
    ).AddTransition deployAutomationConfigState updateStatus 0
    ).AddTransition resetUpdateStrategyState updateStatus 0
    ).AddTransition updateStatus deployStatefulSetState 14
    ).AddTransition updateStatus endState 0

/-- Go `BuildStateMachine` (lines 131–147): resolve the starting state
from the persisted `nextState` read by `getLastStateName` (passed here as
`startingStateNameRead`, since the annotation read is an external
collaborator), defaulting to `StartFresh` on the empty sentinel; fail with
the named configuration error when the resolved name is not registered. -/
def BuildStateMachine (startingStateNameRead : String) : Except String Machine :=
  let startingStateName :=
    if startingStateNameRead = "" then startFreshStateName else startingStateNameRead
  match lookupA startingStateName pipelineMachine.States with
  | none =>
      Except.error ("attempted to set starting state to " ++ startingStateName
        ++ ", but it was not registered with the State Machine!")
  | some startingState => Except.ok (pipelineMachine.SetState startingState)

/-- The name of the current state a successful build resolves to. -/
def startingStateNameOf : Except String Machine → Option String
  | Except.error _ => none
  | Except.ok m => m.currentState.map State.Name

/-- Go `newAllStates`: a fresh Progress Record pointing back at the
initial state. -/
def newAllStates : AllStates :=
  { NextState := startFreshStateName, StateCompletionStatus := [] }

/-- Modelled from the spec: `result.OK` (package `pkg/util/result`, not in
the sources) returns the "done — no further reconciliation needed" outcome
with a nil error. -/
def resultOK : ReconcileResult × Option String := (⟨false, 0⟩, none)

/-- The Reconcile closure of Go `NewReconciliationEndState`: build a fresh
Progress Record, store it under the state-machine annotation and update
the resource.  The annotation value is modelled by the record itself (the
wire format of the spec round-trips, so the JSON blob is abstracted away);
`updateErr` is the outcome of the external `client.Update` call, and on
failure the persisted annotations are unchanged.  `json.Marshal` cannot
fail on this record type, so its error branch is dead and not modelled. -/
def reconciliationEndReconcile (annos : List (String × AllStates))
    (updateErr : Option String) :
    List (String × AllStates) × (ReconcileResult × Option String) :=
  let allStates := newAllStates
  let annos2 := insertA stateMachineAnnotation allStates annos
  match updateErr with
  | some e => (annos, (⟨false, 0⟩, some e))
  | none => (annos2, resultOK)

/-! ### Association-list and first-match lemmas -/

theorem lookupA_insertA_self {α : Type} (k : String) (v : α) (l : List (String × α)) :
    lookupA k (insertA k v l) = some v := by
  induction l with
  | nil => simp [insertA, lookupA]
  | cons hd tl ih =>
    obtain ⟨k', v'⟩ := hd
    by_cases hk : k' = k
    · simp [insertA, hk, lookupA]
    · simp [insertA, hk, lookupA, ih]

theorem lookupA_insertA_ne {α : Type} (k k2 : String) (v : α) (l : List (String × α))
    (h : k2 ≠ k) : lookupA k2 (insertA k v l) = lookupA k2 l := by
  have hne : k ≠ k2 := fun hh => h hh.symm
  induction l with
  | nil => simp [insertA, lookupA, hne]
  | cons hd tl ih =>
    obtain ⟨k', v'⟩ := hd
    by_cases hk : k' = k
    · subst hk
      simp [insertA, lookupA, hne]
    · simp [insertA, hk, lookupA, ih]

theorem isSome_lookupA_insertA {α : Type} (k k2 : String) (v : α) (l : List (String × α))
    (h : (lookupA k2 l).isSome = true) :
    (lookupA k2 (insertA k v l)).isSome = true := by
  by_cases hk : k2 = k
  · subst hk
    simp [lookupA_insertA_self]
  · rw [lookupA_insertA_ne k k2 v l hk]
    exact h

theorem getTransitionLoop_fst_eq_find (env : Env) (ts : List transition) :
    (getTransitionLoop env ts).1 = ts.find? (fun t => env.pred t.predicate) := by
  induction ts with
  | nil => simp [getTransitionLoop]
  | cons t rest ih =>
    by_cases hp : env.pred t.predicate
    · simp [getTransitionLoop, hp, List.find?_cons]
    · simp [getTransitionLoop, hp, List.find?_cons, ih]

/-! ### `AddTransition` lemmas -/

theorem AddTransition_transitionsFor_self (m : Machine) (f t : State) (p : Nat) :
    (m.AddTransition f t p).transitionsFor f.Name
      = m.transitionsFor f.Name ++ [⟨f, t, p⟩] := by
  cases hl : lookupA f.Name m.allTransitions with
  | none =>
    simp [Machine.AddTransition, Machine.transitionsFor, hl, lookupA_insertA_self]
  | some ts =>
    simp [Machine.AddTransition, Machine.transitionsFor, hl, lookupA_insertA_self]

theorem AddTransition_transitionsFor_ne (m : Machine) (f t : State) (p : Nat)
    (n : String) (h : n ≠ f.Name) :
    (m.AddTransition f t p).transitionsFor n = m.transitionsFor n := by
  cases hl : lookupA f.Name m.allTransitions with
  | none =>
    simp [Machine.AddTransition, Machine.transitionsFor, hl,
      lookupA_insertA_ne _ _ _ _ h]
  | some ts =>
    simp [Machine.AddTransition, Machine.transitionsFor, hl,
      lookupA_insertA_ne _ _ _ _ h]

theorem AddTransition_isRegistered_mono (m : Machine) (f t : State) (p : Nat)
    (n : String) (h : m.isRegistered n = true) :
    (m.AddTransition f t p).isRegistered n = true := by
  simp only [Machine.AddTransition, Machine.isRegistered] at h ⊢
  exact isSome_lookupA_insertA _ _ _ _ (isSome_lookupA_insertA _ _ _ _ h)

theorem AddTransition_registers_from (m : Machine) (f t : State) (p : Nat) :
    (m.AddTransition f t p).isRegistered f.Name = true := by
  simp only [Machine.AddTransition, Machine.isRegistered]
  exact isSome_lookupA_insertA _ _ _ _ (by simp [lookupA_insertA_self])

theorem AddTransition_registers_to (m : Machine) (f t : State) (p : Nat) :
    (m.AddTransition f t p).isRegistered t.Name = true := by
  simp only [Machine.AddTransition, Machine.isRegistered]
  simp [lookupA_insertA_self]

/-! ### Claim C1 -/

/-- Claim C1: the next-state resolution of the tick scans the registered outgoing
transitions of a state in registration order and returns the first whose
guard is true at evaluation time (irrespective of later true guards); when
no guard is true the resolved next-state name is the empty sentinel. -/
theorem getTransitionForState_first_true_guard (m : Machine) (env : Env) (s : State) :
    (m.getTransitionForState env s).1
        = (m.transitionsFor s.Name).find? (fun t => env.pred t.predicate)
    ∧ (∀ ts1 t ts2, m.transitionsFor s.Name = ts1 ++ t :: ts2 →
        env.pred t.predicate = true →
        (∀ t1 ∈ ts1, env.pred t1.predicate = false) →
        m.resolveNext env s = t.toS.Name)
    ∧ ((∀ t ∈ m.transitionsFor s.Name, env.pred t.predicate = false) →
        m.resolveNext env s = "") := by
  have hkey : (m.getTransitionForState env s).1
      = (m.transitionsFor s.Name).find? (fun t => env.pred t.predicate) :=
    getTransitionLoop_fst_eq_find env (m.transitionsFor s.Name)
  refine ⟨hkey, ?_, ?_⟩
  · intro ts1 t ts2 heq hp hfalse
    have h1 : ts1.find? (fun t => env.pred t.predicate) = none :=
      List.find?_eq_none.mpr (by intro x hx; simp [hfalse x hx])
    have hfind : (m.transitionsFor s.Name).find? (fun t => env.pred t.predicate)
        = some t := by
      rw [heq, List.find?_append, h1]
      simp [List.find?_cons, hp]
    simp [Machine.resolveNext, hkey, hfind]
  · intro hfalse
    have hfind : (m.transitionsFor s.Name).find? (fun t => env.pred t.predicate)
        = none :=
      List.find?_eq_none.mpr (by intro x hx; simp [hfalse x hx])
    simp [Machine.resolveNext, hkey, hfind]

theorem getTransitionForState_first_true_guard_witness :
    witnessMachine1.resolveNext witnessEnv1 sA = "C" :=
  (getTransitionForState_first_true_guard witnessMachine1 witnessEnv1 sA).2.1
    [⟨sA, sB, 0⟩] ⟨sA, sC, 1⟩ [⟨sA, sD, 2⟩] (by decide) (by decide) (by decide)

/-! ### Claim C9 -/

/-- Claim C9: `AddTransition(from, to, guard)` registers both endpoint states
by name into the registry, appends the transition at the end of the ordered
list keyed by `from.Name` without deduplicating or reordering existing
entries (lists for other names are untouched), and preserves the invariant
that every endpoint name referenced by any registered transition
corresponds to a registered state. -/
theorem AddTransition_spec (m : Machine) (f t : State) (p : Nat) :
    (m.AddTransition f t p).transitionsFor f.Name
        = m.transitionsFor f.Name ++ [⟨f, t, p⟩]
    ∧ (∀ n, n ≠ f.Name → (m.AddTransition f t p).transitionsFor n = m.transitionsFor n)
    ∧ (m.AddTransition f t p).isRegistered f.Name = true
    ∧ (m.AddTransition f t p).isRegistered t.Name = true
    ∧ (m.WellFormed → (m.AddTransition f t p).WellFormed) := by
  refine ⟨AddTransition_transitionsFor_self m f t p,
    fun n h => AddTransition_transitionsFor_ne m f t p n h,
    AddTransition_registers_from m f t p,
    AddTransition_registers_to m f t p,
    fun hwf n tr htr => ?_⟩
  by_cases hn : n = f.Name
  · subst hn
    rw [AddTransition_transitionsFor_self] at htr
    rcases List.mem_append.mp htr with hmem | hmem
    · exact ⟨AddTransition_isRegistered_mono m f t p _ (hwf _ tr hmem).1,
        AddTransition_isRegistered_mono m f t p _ (hwf _ tr hmem).2⟩
    · have htr' : tr = ⟨f, t, p⟩ := by simpa using hmem
      subst htr'
      exact ⟨AddTransition_registers_from m f t p, AddTransition_registers_to m f t p⟩
  · rw [AddTransition_transitionsFor_ne m f t p n hn] at htr
    exact ⟨AddTransition_isRegistered_mono m f t p _ (hwf _ tr htr).1,
      AddTransition_isRegistered_mono m f t p _ (hwf _ tr htr).2⟩

theorem AddTransition_spec_witness :
    ((Machine.NewStateMachine.AddTransition sA sB 0).transitionsFor "C"
        = Machine.NewStateMachine.transitionsFor "C")
    ∧ (Machine.NewStateMachine.AddTransition sA sB 0).WellFormed :=
  ⟨(AddTransition_spec Machine.NewStateMachine sA sB 0).2.1 "C" (by decide),
   (AddTransition_spec Machine.NewStateMachine sA sB 0).2.2.2.2
     (by intro n tr htr; simp [Machine.transitionsFor, Machine.NewStateMachine, lookupA] at htr)⟩

/-! ### Claims C2, C3, C4, C6, C7 and C8: the tick paths -/

/-- Claim C2: when the action of the current state returns a non-nil error the
tick returns that error immediately: no guard is evaluated, no persistence
write happens (the effect list is empty), so the persisted resume point is
unchanged. -/
theorem tick_action_error (m : Machine) (env : Env) (cur : State)
    (res : ReconcileResult) (e : String)
    (hcur : m.currentState = some cur)
    (hact : env.act cur.Reconcile = (res, some e)) :
    m.Reconcile env = some ((res, some e), []) := by
  simp [Machine.Reconcile, hcur, hact]

theorem tick_action_error_witness :
    witnessMachineA.Reconcile envActErr = some ((⟨true, 5⟩, some "boom"), []) :=
  tick_action_error witnessMachineA envActErr sA ⟨true, 5⟩ "boom" rfl rfl

/-- Claim C3: for a state with no registered completion check, a single
error-free action execution makes the state complete on that same tick:
the tick proceeds to transition resolution (the recorded guard
evaluations) and to the persistence write (the `save` effect), with no
second tick required. -/
theorem tick_no_completion_check (m : Machine) (env : Env) (cur : State)
    (res : ReconcileResult)
    (hcur : m.currentState = some cur)
    (hact : env.act cur.Reconcile = (res, none))
    (hchk : cur.IsComplete = none) :
    m.Reconcile env = some
      ((match env.save (m.resolveNext env cur) with
        | some e => (⟨false, 0⟩, some e)
        | none => (res, none)),
       (m.getTransitionForState env cur).2 ++ [Effect.save (m.resolveNext env cur)]) := by
  simp only [Machine.Reconcile, hcur, hact, hchk]
  cases env.save (m.resolveNext env cur) <;> simp

theorem tick_no_completion_check_witness :
    witnessMachineA.Reconcile witnessEnv1
      = some ((⟨true, 0⟩, none),
          [Effect.evalGuard 0, Effect.evalGuard 1, Effect.save "C"]) :=
  (tick_no_completion_check witnessMachineA witnessEnv1 sA ⟨true, 0⟩ rfl rfl rfl).trans
    (by decide)

/-- Claim C4: when the action succeeds but the registered completion check
returns `(false, nil)`, the tick returns the outcome of the action unchanged
with no error and performs no effect at all: no guard is evaluated and no
persistence write happens, so the persisted resume point is unchanged and
a repeated tick re-executes the action of the same state. -/
theorem tick_incomplete (m : Machine) (env : Env) (cur : State) (cid : Nat)
    (res : ReconcileResult)
    (hcur : m.currentState = some cur)
    (hact : env.act cur.Reconcile = (res, none))
    (hchk : cur.IsComplete = some cid)
    (hc : env.chk cid = (false, none)) :
    m.Reconcile env = some ((res, none), []) := by
  simp [Machine.Reconcile, hcur, hact, hchk, hc]

theorem tick_incomplete_witness :
    (witnessMachine1.SetState sE).Reconcile envIncomplete
      = some ((⟨false, 7⟩, none), []) :=
  tick_incomplete (witnessMachine1.SetState sE) envIncomplete sE 0 ⟨false, 7⟩ rfl rfl rfl rfl

/-- Claim C7: when the action succeeds but the registered completion check
returns a non-nil error, the tick returns that error immediately with no
transition, no guard evaluation and no persistence write, like an action
error. -/
theorem tick_completion_check_error (m : Machine) (env : Env) (cur : State) (cid : Nat)
    (res : ReconcileResult) (b : Bool) (e : String)
    (hcur : m.currentState = some cur)
    (hact : env.act cur.Reconcile = (res, none))
    (hchk : cur.IsComplete = some cid)
    (hc : env.chk cid = (b, some e)) :
    m.Reconcile env = some ((⟨false, 0⟩, some e), []) := by
  simp [Machine.Reconcile, hcur, hact, hchk, hc]

theorem tick_completion_check_error_witness :
    (witnessMachine1.SetState sE).Reconcile envChkErr
      = some ((⟨false, 0⟩, some "chkfail"), []) :=
  tick_completion_check_error (witnessMachine1.SetState sE) envChkErr sE 0
    ⟨true, 0⟩ true "chkfail" rfl rfl rfl rfl

/-- Claim C6: on every tick that returns a nil error, the outcome returned
by the tick is exactly the outcome returned by the action of the current state,
passed through unchanged. -/
theorem tick_outcome_passthrough (m : Machine) (env : Env) (cur : State)
    (out : ReconcileResult) (effs : List Effect)
    (hcur : m.currentState = some cur)
    (h : m.Reconcile env = some ((out, none), effs)) :
    out = (env.act cur.Reconcile).1 := by
  rcases hv : env.act cur.Reconcile with ⟨res, err⟩
  cases err with
  | some e => simp [Machine.Reconcile, hcur, hv] at h
  | none =>
    cases hic : cur.IsComplete with
    | none =>
      simp only [Machine.Reconcile, hcur, hv, hic] at h
      cases hs : env.save (m.resolveNext env cur) with
      | some e => simp [hs] at h
      | none => simp [hs] at h; simp [h.1]
    | some cid =>
      rcases hcc : env.chk cid with ⟨isC, cerr⟩
      cases cerr with
      | some e => simp [Machine.Reconcile, hcur, hv, hic, hcc] at h
      | none =>
        cases isC with
        | false =>
          simp [Machine.Reconcile, hcur, hv, hic, hcc] at h
          simp [h.1]
        | true =>
          simp only [Machine.Reconcile, hcur, hv, hic, hcc] at h
          cases hs : env.save (m.resolveNext env cur) with
          | some e => simp [hs] at h
          | none => simp [hs] at h; simp [h.1]

theorem tick_outcome_passthrough_witness :
    (⟨true, 0⟩ : ReconcileResult) = (witnessEnv1.act sA.Reconcile).1 :=
  tick_outcome_passthrough witnessMachineA witnessEnv1 sA ⟨true, 0⟩
    [Effect.evalGuard 0, Effect.evalGuard 1, Effect.save "C"] rfl (by decide)

/-- Claim C8: the tick aborts (modelled as `none`, the panic branch) exactly
when no current state has been established; under the precondition that a
current state is set, the fatal branch is unreachable and the tick always
produces a result. -/
theorem tick_panics_iff_no_current_state (m : Machine) (env : Env) :
    m.Reconcile env = none ↔ m.currentState = none := by
  constructor
  · intro h
    cases hcur : m.currentState with
    | none => rfl
    | some cur =>
      exfalso
      rcases hv : env.act cur.Reconcile with ⟨res, err⟩
      cases err with
      | some e => simp [Machine.Reconcile, hcur, hv] at h
      | none =>
        cases hic : cur.IsComplete with
        | none =>
          simp only [Machine.Reconcile, hcur, hv, hic] at h
          cases hs : env.save (m.resolveNext env cur) <;> simp [hs] at h
        | some cid =>
          rcases hcc : env.chk cid with ⟨isC, cerr⟩
          cases cerr with
          | some e => simp [Machine.Reconcile, hcur, hv, hic, hcc] at h
          | none =>
            cases isC with
            | false => simp [Machine.Reconcile, hcur, hv, hic, hcc] at h
            | true =>
              simp only [Machine.Reconcile, hcur, hv, hic, hcc] at h
              cases hs : env.save (m.resolveNext env cur) <;> simp [hs] at h
  · intro h
    simp [Machine.Reconcile, h]

theorem tick_panics_iff_no_current_state_witness :
    Machine.NewStateMachine.Reconcile witnessEnv1 = none
    ∧ witnessMachineA.Reconcile witnessEnv1 ≠ none :=
  ⟨(tick_panics_iff_no_current_state Machine.NewStateMachine witnessEnv1).mpr rfl,
   fun hh => by
     have := (tick_panics_iff_no_current_state witnessMachineA witnessEnv1).mp hh
     simp [witnessMachineA, Machine.SetState] at this⟩

/-! ### Claim C5 -/

/-- Claim C5: bootstrap resolves the starting state from the Progress
Record: the empty sentinel selects the designated initial state
`StartFresh`; a non-empty name is looked up in the registry, a registered
name becomes the current state, and an unregistered name makes
construction fail with the named configuration error — the default
initial state is never silently substituted. -/
theorem BuildStateMachine_bootstrap :
    startingStateNameOf (BuildStateMachine "") = some startFreshStateName
    ∧ (∀ n, n ≠ "" → lookupA n pipelineMachine.States = none →
        BuildStateMachine n = Except.error ("attempted to set starting state to " ++ n
          ++ ", but it was not registered with the State Machine!"))
    ∧ (∀ n st, n ≠ "" → lookupA n pipelineMachine.States = some st →
        BuildStateMachine n = Except.ok (pipelineMachine.SetState st)) := by
  refine ⟨by decide, ?_, ?_⟩
  · intro n hne hnone
    simp [BuildStateMachine, hne, hnone]
  · intro n st hne hsome
    simp [BuildStateMachine, hne, hsome]

theorem BuildStateMachine_bootstrap_witness :
    startingStateNameOf (BuildStateMachine "") = some startFreshStateName
    ∧ BuildStateMachine "Bogus" = Except.error ("attempted to set starting state to "
        ++ "Bogus" ++ ", but it was not registered with the State Machine!")
    ∧ BuildStateMachine updateStatusState
        = Except.ok (pipelineMachine.SetState NewUpdateStatusState) :=
  ⟨BuildStateMachine_bootstrap.1,
   BuildStateMachine_bootstrap.2.1 "Bogus" (by decide) (by decide),
   BuildStateMachine_bootstrap.2.2 updateStatusState NewUpdateStatusState
     (by decide) (by decide)⟩

/-! ### Claim C10 -/

/-- Claim C10: a successful run of the terminal `ReconciliationEnd` action
overwrites the persisted Progress Record with a record whose `nextState`
is the name `StartFresh` of the initial state, so the next invocation
bootstraps at the beginning of the pipeline (the build from that record
resolves `StartFresh` as the current state). -/
theorem reconciliationEnd_resets_progress :
    newAllStates.NextState = startFreshStateName
    ∧ (∀ annos, lookupA stateMachineAnnotation (reconciliationEndReconcile annos none).1
        = some newAllStates)
    ∧ startingStateNameOf (BuildStateMachine newAllStates.NextState)
        = some startFreshStateName := by
  refine ⟨rfl, ?_, by decide⟩
  intro annos
  simp [reconciliationEndReconcile, lookupA_insertA_self]

theorem reconciliationEnd_resets_progress_witness :
    lookupA stateMachineAnnotation (reconciliationEndReconcile [] none).1
      = some newAllStates :=
  reconciliationEnd_resets_progress.2.1 []
